import Mathlib

/-!
Verification of the polygon-drawing map widget
(`src/components/map/Map.tsx` of ahmedosamaalam/interactive-map-app).

The TypeScript component is embedded shallowly:
* coordinates are rationals (`ℚ`), so `===` on numbers becomes decidable
  equality and `JSON.stringify` equality of point lists becomes structural
  equality of `List Position`;
* the turf geometry predicates (`booleanOverlap`, `booleanCrosses`,
  `booleanIntersects`) are external black boxes, modelled as an abstract
  record of boolean predicates;
* the React component state (`polygons`, `intersectingIndex`,
  `intersectingIndices`) becomes an explicit `DrawerState` record and each
  event handler becomes a function on that state.
-/

namespace InteractiveMap

/-- `Position`: a `[lat, lng]` pair (line 10 of Map.tsx). -/
abbrev Position : Type := ℚ × ℚ

/-- `isClosedPolygon` (lines 35-41): more than two points and the first
point equal to the last point in both coordinates. -/
def isClosedPolygon (positions : List Position) : Bool :=
  decide (2 < positions.length) &&
    decide (positions.head!.1 = positions.getLast!.1) &&
    decide (positions.head!.2 = positions.getLast!.2)

/-- `toPosition` (lines 21-32): map each lat/lng literal to a pair (the
identity in this embedding, since a `LatLngLiteral` is already modelled by
its pair of coordinates), then append a copy of the first point when the
list is non-empty and not closed. -/
def toPosition (latlngs : List Position) : List Position :=
  let positions := latlngs.map (fun latlng => (latlng.1, latlng.2))
  if 0 < positions.length && !isClosedPolygon positions then
    positions ++ [positions.head!]
  else
    positions

/-- A GeoJSON polygon as built by `toGeoJSON` via `turf.polygon([positions])`
(lines 44-46): a single ring of positions. -/
structure GeoJSONPolygon where
  coordinates : List (List Position)
deriving DecidableEq

/-- `toGeoJSON` (lines 44-46). -/
def toGeoJSON (positions : List Position) : GeoJSONPolygon :=
  ⟨[positions]⟩

/-- The three turf boolean predicates used by `checkIntersections`
(lines 59-61). They belong to the external geometry library, so they are
abstract parameters of the embedding. -/
structure GeoPredicates where
  booleanOverlap : GeoJSONPolygon → GeoJSONPolygon → Bool
  booleanCrosses : GeoJSONPolygon → GeoJSONPolygon → Bool
  booleanIntersects : GeoJSONPolygon → GeoJSONPolygon → Bool

/-- The disjunction tested inside the loop of `checkIntersections`
(lines 58-62). -/
def conflictB (turf : GeoPredicates) (a b : GeoJSONPolygon) : Bool :=
  turf.booleanOverlap a b || turf.booleanCrosses a b ||
    turf.booleanIntersects a b

/-- The `for` loop of `checkIntersections` (lines 56-65), with the loop
counter `i` made explicit. -/
def checkIntersectionsLoop (turf : GeoPredicates) (newPolygonGeoJSON : GeoJSONPolygon)
    (existingPolygons : List (List Position)) (i : Nat) : Option Nat :=
  match existingPolygons with
  | [] => none
  | p :: rest =>
    if conflictB turf newPolygonGeoJSON (toGeoJSON p) then some i
    else checkIntersectionsLoop turf newPolygonGeoJSON rest (i + 1)

/-- `checkIntersections` (lines 49-67): index of the first stored polygon
that overlaps, crosses or intersects the new one, `none` otherwise. -/
def checkIntersections (turf : GeoPredicates) (newPolygon : List Position)
    (existingPolygons : List (List Position)) : Option Nat :=
  checkIntersectionsLoop turf (toGeoJSON newPolygon) existingPolygons 0

/-- The `PolygonDrawer` component state (lines 70-74). -/
structure DrawerState where
  polygons : List (List Position)
  intersectingIndex : Option Nat
  intersectingIndices : List Nat
deriving DecidableEq

/-- `handleCreated` (lines 77-94). The `setPolygons` updater runs on the
current list; the trailing `setIntersectingIndices([])` on line 93 is the
last write to that piece of state, so it ends up `[]` on both branches. -/
def handleCreated (turf : GeoPredicates) (s : DrawerState)
    (layer : List Position) : DrawerState :=
  let newPositions := toPosition layer
  match checkIntersections turf newPositions s.polygons with
  | some _ =>
    { polygons := s.polygons ++ [newPositions],
      intersectingIndex := some s.polygons.length,
      intersectingIndices := [] }
  | none =>
    { polygons := s.polygons ++ [newPositions],
      intersectingIndex := none,
      intersectingIndices := [] }

/-- `handleDeleted` (lines 97-117): the `forEach`/`push` loop over the
stored polygons, keeping those that deep-equal no deleted layer's
normalized point list, then clearing `intersectingIndex`.
`intersectingIndices` is not written by this handler. -/
def handleDeleted (s : DrawerState) (layers : List (List Position)) : DrawerState :=
  let remainingPolygons := s.polygons.foldl
    (fun acc polygon =>
      let layerPositions := layers.map (fun layer => toPosition layer)
      let isDel := layerPositions.any (fun deletedPositions => decide (polygon = deletedPositions))
      if isDel then acc else acc ++ [polygon])
    []
  { polygons := remainingPolygons,
    intersectingIndex := none,
    intersectingIndices := s.intersectingIndices }

/-- One iteration of the `editedLayers.forEach` loop of `handleEdited`
(lines 124-136): `polygons` is the component state (the pre-edit store,
which `findIndex` scans), `updatedPolygons` is the copy being updated. -/
def editStep (polygons updatedPolygons : List (List Position))
    (layer : List Position) : List (List Position) :=
  let updatedPositions := toPosition layer
  match polygons.findIdx? (fun polygon => decide (polygon = toPosition layer)) with
  | some index => updatedPolygons.set index updatedPositions
  | none => updatedPolygons

/-- The store update of `handleEdited` (lines 120-136): fold `editStep`
over the edited layers, starting from a copy of the store. -/
def handleEditedPolygons (polygons : List (List Position))
    (editedLayers : List (List Position)) : List (List Position) :=
  editedLayers.foldl (editStep polygons) polygons

/-- The `.filter((_, idx) => idx !== i)` of line 143, as an index-tracking
traversal starting at index `k`. -/
def filterIdxNeFrom (l : List (List Position)) (i k : Nat) : List (List Position) :=
  match l with
  | [] => []
  | a :: rest =>
    if k ≠ i then a :: filterIdxNeFrom rest i (k + 1)
    else filterIdxNeFrom rest i (k + 1)

/-- All polygons of `l` except the one at index `i` (line 143). -/
def othersExcept (l : List (List Position)) (i : Nat) : List (List Position) :=
  filterIdxNeFrom l i 0

/-- The intersection re-check of `handleEdited` (lines 138-148): collect
every index `i` whose polygon conflicts with some other polygon of the
updated collection. -/
def handleEditedFlags (turf : GeoPredicates)
    (updatedPolygons : List (List Position)) : List Nat :=
  (List.range updatedPolygons.length).filter
    (fun i =>
      (checkIntersections turf (updatedPolygons.getD i []) (othersExcept updatedPolygons i)).isSome)

/-- `handleEdited` (lines 120-152): update the store, rebuild
`intersectingIndices`; `intersectingIndex` is not written by this handler. -/
def handleEdited (turf : GeoPredicates) (s : DrawerState)
    (editedLayers : List (List Position)) : DrawerState :=
  let updatedPolygons := handleEditedPolygons s.polygons editedLayers
  { polygons := updatedPolygons,
    intersectingIndex := s.intersectingIndex,
    intersectingIndices := handleEditedFlags turf updatedPolygons }

/-- The colour given to the polygon rendered at `index` (line 179):
`intersectingIndex === index ? "red" : "blue"`; a `null` index compares
unequal to every number. -/
def polygonColor (intersectingIndex : Option Nat) (index : Nat) : String :=
  if intersectingIndex = some index then "red" else "blue"

/-- The optional props of `MapWithPolygonDrawer` (lines 11-14). -/
structure MapWithPolygonDrawerProps where
  center : Option Position
  zoom : Option ℚ

/-- The `center` and `zoom` attributes received by the `MapContainer`
(lines 188-193). The JSX writes the defaulted attributes first and then
spreads `{...props}`, so a prop that is present overrides the defaulted
attribute; `props.zoom || 13` treats a zoom of `0` as absent (falsy), and
a supplied center array is always truthy. -/
def mapContainerCenterZoom (props : MapWithPolygonDrawerProps) : Position × ℚ :=
  let defaultedCenter : Position :=
    match props.center with
    | some c => c
    | none => (24.8607, 67.0099)
  let defaultedZoom : ℚ :=
    match props.zoom with
    | some z => if z = 0 then 13 else z
    | none => 13
  let center :=
    match props.center with
    | some c => c
    | none => defaultedCenter
  let zoom :=
    match props.zoom with
    | some z => z
    | none => defaultedZoom
  (center, zoom)

/-! ### Concrete polygons from the spec's test scenarios (§8) -/

/-- Square A of spec §8, as the drawing control would deliver it (open). -/
def sqA : List Position := [(0, 0), (0, 1), (1, 1), (1, 0)]

/-- Square B of spec §8, disjoint from A. -/
def sqB : List Position := [(5, 5), (5, 6), (6, 6), (6, 5)]

/-- Geometry predicates that report every pair as conflicting; used to
exercise the conflict branches of the handlers at concrete inputs. -/
def turfAlways : GeoPredicates :=
  ⟨fun _ _ => true, fun _ _ => true, fun _ _ => true⟩

/-- Geometry predicates that never report a conflict. -/
def turfNever : GeoPredicates :=
  ⟨fun _ _ => false, fun _ _ => false, fun _ _ => false⟩

/-! ### Helper lemmas about the normalizer -/

lemma map_pair_id (l : List Position) :
    l.map (fun latlng => (latlng.1, latlng.2)) = l := by
  simp

lemma isClosedPolygon_spec (P : List Position) (hC : isClosedPolygon P = true) :
    2 < P.length ∧ P.head! = P.getLast! := by
  simp only [isClosedPolygon, Bool.and_eq_true, decide_eq_true_eq] at hC
  exact ⟨hC.1.1, Prod.ext hC.1.2 hC.2⟩

lemma isClosedPolygon_eq_false_of_ne (P : List Position)
    (h2 : P.head! ≠ P.getLast!) : isClosedPolygon P = false := by
  cases hc : isClosedPolygon P with
  | false => rfl
  | true => exact absurd (isClosedPolygon_spec P hc).2 h2

lemma isClosedPolygon_eq_false_of_short (P : List Position)
    (h : P.length ≤ 2) : isClosedPolygon P = false := by
  simp only [isClosedPolygon, Bool.and_eq_false_iff, decide_eq_false_iff_not, not_lt]
  exact Or.inl (Or.inl h)

lemma toPosition_not_closed (P : List Position) (h0 : P ≠ [])
    (hC : isClosedPolygon P = false) : toPosition P = P ++ [P.head!] := by
  simp [toPosition, map_pair_id, hC, List.length_pos.mpr h0]

lemma toPosition_closed (P : List Position) (hC : isClosedPolygon P = true) :
    toPosition P = P := by
  simp [toPosition, map_pair_id, hC]

lemma head?_eq_some_head! (l : List Position) (h : l ≠ []) :
    l.head? = some l.head! := by
  cases l with
  | nil => exact absurd rfl h
  | cons a t => rfl

lemma getLast?_eq_some_getLast! (l : List Position) (h : l ≠ []) :
    l.getLast? = some l.getLast! := by
  cases l with
  | nil => exact absurd rfl h
  | cons a t =>
    rw [List.getLast?_eq_getLast _ h, List.getLast!_cons, List.getLast_eq_getLastD]

/-! ### C3 -/

/-- C3 counterexample: the one-point list `[(0,0)]` has length ≤ 2, yet the
normalizer does not return it unchanged — it appends a closing point (the
`isClosedPolygon` guard only recognizes lists of more than two points as
closed, so short non-empty lists always take the append branch). -/
theorem toPosition_short_list_counterexample :
    ([((0 : ℚ), (0 : ℚ))] : List Position).length ≤ 2 ∧
      toPosition [((0 : ℚ), (0 : ℚ))] ≠ [((0 : ℚ), (0 : ℚ))] := by
  decide

/-- C3 (amended): for every point list P of length ≤ 2, the normalizer
returns P unchanged only when P is empty; for a non-empty P of one or two
points it appends a duplicate of the first point, i.e. the output is
`P ++ P.take 1`. -/
theorem toPosition_short_list_appends_first (P : List Position)
    (h : P.length ≤ 2) : toPosition P = P ++ P.take 1 := by
  cases P with
  | nil => simp [toPosition]
  | cons a t =>
    rw [toPosition_not_closed (a :: t) (by simp)
      (isClosedPolygon_eq_false_of_short _ h)]
    simp

/-- Witness for C3 (amended) at the two-point list of spec §8's square A
truncated to its first two vertices. -/
theorem toPosition_short_list_appends_first_witness :
    toPosition [((0 : ℚ), (0 : ℚ)), ((0 : ℚ), (1 : ℚ))] =
      [((0 : ℚ), (0 : ℚ)), ((0 : ℚ), (1 : ℚ))] ++
        [((0 : ℚ), (0 : ℚ)), ((0 : ℚ), (1 : ℚ))].take 1 :=
  toPosition_short_list_appends_first _ (by decide)

/-! ### C7 -/

/-- C7: for every point list P of more than two points whose first and last
points differ, the normalizer appends exactly one duplicate of the first
point — P is a prefix of the output, unchanged and in order — and the
output's first and last elements are equal. -/
theorem toPosition_closes_open_list (P : List Position) (h1 : 2 < P.length)
    (h2 : P.head! ≠ P.getLast!) :
    toPosition P = P ++ [P.head!] ∧
      (toPosition P).head? = (toPosition P).getLast? := by
  have h0 : P ≠ [] := by
    intro h
    rw [h] at h1
    simp at h1
  have hT := toPosition_not_closed P h0 (isClosedPolygon_eq_false_of_ne P h2)
  refine ⟨hT, ?_⟩
  rw [hT]
  cases P with
  | nil => exact absurd rfl h0
  | cons a t =>
    rw [List.getLast?_concat]
    simp

/-- Witness for C7 at spec §8's square A (4 distinct vertices). -/
theorem toPosition_closes_open_list_witness :
    toPosition sqA = sqA ++ [sqA.head!] ∧
      (toPosition sqA).head? = (toPosition sqA).getLast? :=
  toPosition_closes_open_list sqA (by decide) (by decide)

/-! ### C8 -/

/-- C8 counterexample: `[(0,0)]` has identical first and last points (the
spec's definition of an already-closed polygon), yet normalizing it twice
does not yield the same result both times: the first pass gives
`[(0,0),(0,0)]`, the second appends again. -/
theorem toPosition_idempotence_counterexample :
    ([((0 : ℚ), (0 : ℚ))] : List Position).head! =
        ([((0 : ℚ), (0 : ℚ))] : List Position).getLast! ∧
      toPosition (toPosition [((0 : ℚ), (0 : ℚ))]) ≠
        toPosition [((0 : ℚ), (0 : ℚ))] := by
  decide

/-- C8 (amended): for every point list of more than two points whose first
and last points are identical — exactly the lists `isClosedPolygon`
recognizes — the normalizer is the identity, so normalizing twice yields
the same result both times. -/
theorem toPosition_idempotent_on_closed (P : List Position)
    (h : isClosedPolygon P = true) :
    toPosition P = P ∧ toPosition (toPosition P) = toPosition P := by
  have h1 := toPosition_closed P h
  exact ⟨h1, by rw [h1, h1]⟩

/-- Witness for C8 (amended) at the closed form of spec §8's square A. -/
theorem toPosition_idempotent_on_closed_witness :
    toPosition [((0 : ℚ), (0 : ℚ)), ((0 : ℚ), (1 : ℚ)), ((1 : ℚ), (1 : ℚ)),
        ((0 : ℚ), (0 : ℚ))] =
      [((0 : ℚ), (0 : ℚ)), ((0 : ℚ), (1 : ℚ)), ((1 : ℚ), (1 : ℚ)),
        ((0 : ℚ), (0 : ℚ))] ∧
      toPosition (toPosition [((0 : ℚ), (0 : ℚ)), ((0 : ℚ), (1 : ℚ)),
          ((1 : ℚ), (1 : ℚ)), ((0 : ℚ), (0 : ℚ))]) =
        toPosition [((0 : ℚ), (0 : ℚ)), ((0 : ℚ), (1 : ℚ)),
          ((1 : ℚ), (1 : ℚ)), ((0 : ℚ), (0 : ℚ))] :=
  toPosition_idempotent_on_closed _ (by decide)

/-! ### C10 -/

/-- C10 counterexample: a caller-supplied zoom of 0 IS honored — the
`{...props}` spread comes after the defaulted `zoom` attribute, so the map
receives zoom 0, not the fallback 13 that the claim asserts. -/
theorem mapContainer_zoom_zero_counterexample :
    (mapContainerCenterZoom ⟨none, some 0⟩).2 = 0 ∧
      (mapContainerCenterZoom ⟨none, some 0⟩).2 ≠ 13 := by
  decide

/-- C10 (amended): the map is created with the fallback zoom 13 exactly
when the zoom prop is absent, and with the fallback center
(24.8607, 67.0099) exactly when the center prop is absent; every supplied
zoom — including 0 — and every supplied center are used as given, because
the `{...props}` spread overrides the defaulted attributes. -/
theorem mapContainer_props_override_defaults (props : MapWithPolygonDrawerProps) :
    (mapContainerCenterZoom props).1 = props.center.getD (24.8607, 67.0099) ∧
      (mapContainerCenterZoom props).2 = props.zoom.getD 13 := by
  obtain ⟨c, z⟩ := props
  cases c <;> cases z <;> simp [mapContainerCenterZoom]

/-- Witness for C10 (amended) with both props absent. -/
theorem mapContainer_props_override_defaults_witness :
    (mapContainerCenterZoom ⟨none, none⟩).1 =
        (none : Option Position).getD (24.8607, 67.0099) ∧
      (mapContainerCenterZoom ⟨none, none⟩).2 = (none : Option ℚ).getD 13 :=
  mapContainer_props_override_defaults ⟨none, none⟩

/-! ### Helper lemmas about the handlers -/

lemma handleCreated_polygons (turf : GeoPredicates) (s : DrawerState)
    (layer : List Position) :
    (handleCreated turf s layer).polygons = s.polygons ++ [toPosition layer] := by
  cases h : checkIntersections turf (toPosition layer) s.polygons <;>
    simp [handleCreated, h]

lemma set_getElem_self {α : Type} (l : List α) (i : Nat) (h : i < l.length) :
    l.set i l[i] = l := by
  apply List.ext_getElem (by simp)
  intro n h1 h2
  rw [List.getElem_set]
  split
  · congr 1
  · rfl

lemma findIdx?_found {α : Type} (p : α → Bool) (l : List α) (i : Nat)
    (h : l.findIdx? p = some i) :
    ∃ hi : i < l.length, p l[i] = true := by
  obtain ⟨hi, hfi⟩ := List.findIdx?_eq_some_iff_findIdx_eq.mp h
  refine ⟨hi, ?_⟩
  have hw : l.findIdx p < l.length := by rw [hfi]; exact hi
  have := @List.findIdx_getElem _ p l hw
  simp only [hfi] at this
  exact this

lemma editStep_polygons_self (polygons : List (List Position))
    (layer : List Position) :
    editStep polygons polygons layer = polygons := by
  unfold editStep
  cases h : polygons.findIdx? (fun polygon => decide (polygon = toPosition layer)) with
  | none => rfl
  | some i =>
    obtain ⟨hi, hp⟩ := findIdx?_found _ polygons i h
    have heq : polygons[i] = toPosition layer := of_decide_eq_true hp
    rw [← heq]
    exact set_getElem_self polygons i hi

lemma handleEditedPolygons_eq_self (polygons : List (List Position))
    (layers : List (List Position)) :
    handleEditedPolygons polygons layers = polygons := by
  unfold handleEditedPolygons
  induction layers with
  | nil => rfl
  | cons l ls ih => rw [List.foldl_cons, editStep_polygons_self, ih]

/-! ### C1 -/

/-- C1: each edited layer is matched against the store by exact equality of
its normalized point list against the entries' previous (pre-edit) point
lists; on a match the first matching entry is replaced by the layer's new
normalized point list (and the matched entry's previous value is that very
list, which is why the store ends up unchanged — first conjunct); if no
entry matches, the store copy is left untouched for that layer. -/
theorem handleEdited_deep_equality_matching (polygons : List (List Position))
    (layers : List (List Position)) :
    handleEditedPolygons polygons layers = polygons ∧
    ∀ layer : List Position, ∀ updated : List (List Position),
      ((∀ p ∈ polygons, p ≠ toPosition layer) →
        editStep polygons updated layer = updated) ∧
      (∀ i, polygons.findIdx? (fun polygon => decide (polygon = toPosition layer)) = some i →
        editStep polygons updated layer = updated.set i (toPosition layer) ∧
          polygons[i]? = some (toPosition layer)) := by
  refine ⟨handleEditedPolygons_eq_self polygons layers, ?_⟩
  intro layer updated
  constructor
  · intro hnone
    have h : polygons.findIdx? (fun polygon => decide (polygon = toPosition layer)) = none := by
      rw [List.findIdx?_eq_none_iff]
      intro x hx
      exact decide_eq_false (hnone x hx)
    unfold editStep
    rw [h]
  · intro i h
    obtain ⟨hi, hp⟩ := findIdx?_found _ polygons i h
    have heq : polygons[i] = toPosition layer := of_decide_eq_true hp
    constructor
    · unfold editStep
      rw [h]
    · rw [List.getElem?_eq_getElem hi, heq]

/-- Witness for C1: a layer matching no stored entry leaves the store copy
unchanged (the edit is silently dropped). -/
theorem handleEdited_deep_equality_matching_witness :
    editStep [toPosition sqA] [toPosition sqA] sqB = [toPosition sqA] :=
  ((handleEdited_deep_equality_matching [toPosition sqA] []).2 sqB
    [toPosition sqA]).1 (by decide)

/-! ### C2 -/

/-- C2 counterexample: create square B over a store holding square A, with
geometry predicates that report a conflict; the new polygon is appended and
its index is flagged, but the conflicting stored polygon at index 0 renders
blue, not red as the claim asserts (the render layer reads only
`intersectingIndex`, which points at the new polygon alone). -/
theorem handleCreated_conflict_render_counterexample :
    checkIntersections turfAlways (toPosition sqB) [toPosition sqA] = some 0 ∧
    (handleCreated turfAlways ⟨[toPosition sqA], none, []⟩ sqB).polygons =
      [toPosition sqA, toPosition sqB] ∧
    polygonColor
      (handleCreated turfAlways ⟨[toPosition sqA], none, []⟩ sqB).intersectingIndex
      1 = "red" ∧
    polygonColor
      (handleCreated turfAlways ⟨[toPosition sqA], none, []⟩ sqB).intersectingIndex
      0 = "blue" := by
  decide

/-- C2 (amended): when the new normalized polygon conflicts with some stored
polygon, it is still appended to the store and `intersectingIndex` is set to
the new polygon's index, so the new polygon renders red while every
previously stored polygon — the conflicting one included — renders blue. -/
theorem handleCreated_conflict_appends_and_flags_new (turf : GeoPredicates)
    (s : DrawerState) (layer : List Position) (j : Nat)
    (h : checkIntersections turf (toPosition layer) s.polygons = some j) :
    (handleCreated turf s layer).polygons = s.polygons ++ [toPosition layer] ∧
    (handleCreated turf s layer).intersectingIndex = some s.polygons.length ∧
    polygonColor (handleCreated turf s layer).intersectingIndex
      s.polygons.length = "red" ∧
    ∀ k, k < s.polygons.length →
      polygonColor (handleCreated turf s layer).intersectingIndex k = "blue" := by
  have hIdx : (handleCreated turf s layer).intersectingIndex =
      some s.polygons.length := by
    simp [handleCreated, h]
  refine ⟨handleCreated_polygons turf s layer, hIdx, ?_, ?_⟩
  · simp [polygonColor, hIdx]
  · intro k hk
    have hne : (some s.polygons.length : Option Nat) ≠ some k := by
      simp
      omega
    simp [polygonColor, hIdx, hne]

/-- Witness for C2 (amended): concrete conflicting create over `[sqA]`. -/
theorem handleCreated_conflict_appends_and_flags_new_witness :
    (handleCreated turfAlways ⟨[toPosition sqA], none, []⟩ sqB).polygons =
      (DrawerState.mk [toPosition sqA] none []).polygons ++ [toPosition sqB] ∧
    (handleCreated turfAlways ⟨[toPosition sqA], none, []⟩ sqB).intersectingIndex =
      some (DrawerState.mk [toPosition sqA] none []).polygons.length ∧
    polygonColor
      (handleCreated turfAlways ⟨[toPosition sqA], none, []⟩ sqB).intersectingIndex
      (DrawerState.mk [toPosition sqA] none []).polygons.length = "red" ∧
    ∀ k, k < (DrawerState.mk [toPosition sqA] none []).polygons.length →
      polygonColor
        (handleCreated turfAlways ⟨[toPosition sqA], none, []⟩ sqB).intersectingIndex
        k = "blue" :=
  handleCreated_conflict_appends_and_flags_new turfAlways
    ⟨[toPosition sqA], none, []⟩ sqB 0 (by decide)

/-! ### C5 -/

lemma foldl_keep_filter {α : Type} (f : α → Bool) (l : List α) (acc : List α) :
    l.foldl (fun acc x => if f x then acc else acc ++ [x]) acc =
      acc ++ l.filter (fun x => !f x) := by
  induction l generalizing acc with
  | nil => simp
  | cons a t ih =>
    rw [List.foldl_cons]
    cases h : f a with
    | true => simp [h, ih, List.filter_cons]
    | false => simp [h, ih, List.filter_cons]

lemma handleDeleted_polygons_eq (s : DrawerState) (layers : List (List Position)) :
    handleDeleted s layers =
      { polygons := s.polygons.filter
          (fun polygon => !((layers.map (fun layer => toPosition layer)).any
            (fun deletedPositions => decide (polygon = deletedPositions)))),
        intersectingIndex := none,
        intersectingIndices := s.intersectingIndices } := by
  have h := foldl_keep_filter
    (fun polygon => (layers.map (fun layer => toPosition layer)).any
      (fun deletedPositions => decide (polygon = deletedPositions)))
    s.polygons []
  simp only [List.nil_append] at h
  unfold handleDeleted
  rw [h]

/-- C5: after a delete event the store is exactly the original-order
subsequence of previously stored polygons that deep-equal no deleted
layer's normalized point list, and `intersectingIndex` is cleared
unconditionally (no conflict re-check happens: the result does not depend
on the geometry predicates at all); in particular deleting B from the
conflict-free store [A, B] by B's exact point list leaves [A] with the
flag cleared. -/
theorem handleDeleted_filters_and_clears_flag (s : DrawerState)
    (layers : List (List Position)) :
    handleDeleted s layers =
      { polygons := s.polygons.filter
          (fun polygon => decide (∀ l ∈ layers, toPosition l ≠ polygon)),
        intersectingIndex := none,
        intersectingIndices := s.intersectingIndices } ∧
    handleDeleted ⟨[toPosition sqA, toPosition sqB], none, []⟩ [sqB] =
      ⟨[toPosition sqA], none, []⟩ := by
  refine ⟨?_, by decide⟩
  rw [handleDeleted_polygons_eq]
  congr 1
  apply List.filter_congr
  intro p _
  rw [← Bool.coe_iff_coe]
  simp only [Bool.not_eq_true', List.any_map, List.any_eq_false, Function.comp,
    decide_eq_true_eq, ne_eq]
  constructor
  · intro h l hl heq
    exact h l hl heq.symm
  · intro h l hl heq
    exact h l hl heq.symm

/-- Witness for C5 at the concrete two-square store. -/
theorem handleDeleted_filters_and_clears_flag_witness :
    handleDeleted ⟨[toPosition sqA, toPosition sqB], none, []⟩ [sqB] =
      { polygons := [toPosition sqA, toPosition sqB].filter
          (fun polygon => decide (∀ l ∈ [sqB], toPosition l ≠ polygon)),
        intersectingIndex := none,
        intersectingIndices := [] } :=
  (handleDeleted_filters_and_clears_flag
    ⟨[toPosition sqA, toPosition sqB], none, []⟩ [sqB]).1

/-! ### C9 -/

lemma toPosition_nil : toPosition ([] : List Position) = [] := rfl

lemma toPosition_ne_nil (P : List Position) (h0 : P ≠ []) :
    toPosition P ≠ [] := by
  cases hC : isClosedPolygon P with
  | true =>
    rw [toPosition_closed P hC]
    exact h0
  | false =>
    rw [toPosition_not_closed P h0 hC]
    simp

lemma toPosition_head?_eq_getLast? (P : List Position) :
    (toPosition P).head? = (toPosition P).getLast? := by
  cases hC : isClosedPolygon P with
  | true =>
    rw [toPosition_closed P hC]
    obtain ⟨hlen, heq⟩ := isClosedPolygon_spec P hC
    have h0 : P ≠ [] := by
      intro h
      rw [h] at hlen
      simp at hlen
    rw [head?_eq_some_head! P h0, getLast?_eq_some_getLast! P h0, heq]
  | false =>
    cases P with
    | nil => rfl
    | cons a t =>
      rw [toPosition_not_closed _ (by simp) hC, List.getLast?_concat]
      simp

/-- C9: the normalizer closes every non-empty input (first and last of the
output are equal, and the output is non-empty) and maps the empty list to
the empty list; consequently each of the three event handlers preserves the
invariant that every stored polygon is empty or closed. -/
theorem store_polygons_closed_invariant :
    (∀ P : List Position, P ≠ [] →
      toPosition P ≠ [] ∧ (toPosition P).head? = (toPosition P).getLast?) ∧
    toPosition ([] : List Position) = [] ∧
    (∀ (turf : GeoPredicates) (s : DrawerState) (layerC : List Position)
        (layersD layersE : List (List Position)),
      (∀ p ∈ s.polygons, p.head? = p.getLast?) →
        (∀ p ∈ (handleCreated turf s layerC).polygons, p.head? = p.getLast?) ∧
        (∀ p ∈ (handleDeleted s layersD).polygons, p.head? = p.getLast?) ∧
        (∀ p ∈ (handleEdited turf s layersE).polygons, p.head? = p.getLast?)) := by
  refine ⟨fun P h0 => ⟨toPosition_ne_nil P h0, toPosition_head?_eq_getLast? P⟩,
    rfl, ?_⟩
  intro turf s layerC layersD layersE hS
  refine ⟨?_, ?_, ?_⟩
  · intro p hp
    rw [handleCreated_polygons] at hp
    rcases List.mem_append.mp hp with hmem | hmem
    · exact hS p hmem
    · rw [List.mem_singleton.mp hmem]
      exact toPosition_head?_eq_getLast? layerC
  · intro p hp
    rw [handleDeleted_polygons_eq] at hp
    exact hS p (List.mem_filter.mp hp).1
  · intro p hp
    have hpoly : (handleEdited turf s layersE).polygons = s.polygons := by
      simp [handleEdited, handleEditedPolygons_eq_self]
    rw [hpoly] at hp
    exact hS p hp

/-- Witness for C9: a polygon created from square A in an empty store is
closed. -/
theorem store_polygons_closed_invariant_witness :
    (toPosition sqA).head? = (toPosition sqA).getLast? :=
  (store_polygons_closed_invariant.2.2 turfNever ⟨[], none, []⟩ sqA [] []
    (by simp)).1 (toPosition sqA) (by decide)

/-! ### C4 -/

lemma checkIntersectionsLoop_eq_findIdx? (turf : GeoPredicates)
    (g : GeoJSONPolygon) (l : List (List Position)) (k : Nat) :
    checkIntersectionsLoop turf g l k =
      (l.findIdx? (fun p => conflictB turf g (toGeoJSON p))).map (fun i => i + k) := by
  induction l generalizing k with
  | nil => rfl
  | cons a t ih =>
    rw [checkIntersectionsLoop]
    cases h : conflictB turf g (toGeoJSON a) with
    | true => simp [List.findIdx?_cons, h]
    | false =>
      rw [ih (k + 1)]
      have hsh : (a :: t).findIdx? (fun p => conflictB turf g (toGeoJSON p)) =
          (t.findIdx? (fun p => conflictB turf g (toGeoJSON p))).map
            (fun i => i + 1) := by
        simp [List.findIdx?_cons, h, List.findIdx?_start_succ]
      rw [hsh, Option.map_map]
      cases t.findIdx? (fun p => conflictB turf g (toGeoJSON p)) with
      | none => rfl
      | some j =>
        simp [Function.comp]
        omega

lemma checkIntersections_eq_findIdx? (turf : GeoPredicates)
    (newPolygon : List Position) (existingPolygons : List (List Position)) :
    checkIntersections turf newPolygon existingPolygons =
      existingPolygons.findIdx?
        (fun p => conflictB turf (toGeoJSON newPolygon) (toGeoJSON p)) := by
  unfold checkIntersections
  rw [checkIntersectionsLoop_eq_findIdx?]
  cases existingPolygons.findIdx?
      (fun p => conflictB turf (toGeoJSON newPolygon) (toGeoJSON p)) with
  | none => rfl
  | some j => simp

/-- C4: `checkIntersections` returns `some i` exactly when `i` is the first
index (in collection order) whose polygon satisfies the overlap-or-crosses-
or-intersects disjunction against the candidate — every earlier index fails
the test, which is the short-circuit evaluation order — and returns `none`
exactly when no polygon of the collection satisfies it. -/
theorem checkIntersections_first_conflict_index (turf : GeoPredicates)
    (newPolygon : List Position) (existingPolygons : List (List Position)) :
    (∀ i, checkIntersections turf newPolygon existingPolygons = some i ↔
      (i < existingPolygons.length ∧
        conflictB turf (toGeoJSON newPolygon)
          (toGeoJSON (existingPolygons.getD i [])) = true ∧
        ∀ j, j < i →
          conflictB turf (toGeoJSON newPolygon)
            (toGeoJSON (existingPolygons.getD j [])) = false)) ∧
    (checkIntersections turf newPolygon existingPolygons = none ↔
      ∀ p ∈ existingPolygons,
        conflictB turf (toGeoJSON newPolygon) (toGeoJSON p) = false) := by
  constructor
  · intro i
    rw [checkIntersections_eq_findIdx?, List.findIdx?_eq_some_iff_findIdx_eq]
    constructor
    · rintro ⟨hi, hfi⟩
      have hchar := (List.findIdx_eq hi).mp hfi
      refine ⟨hi, ?_, ?_⟩
      · rw [List.getD_eq_getElem?_getD, List.getElem?_eq_getElem hi]
        simpa using hchar.1
      · intro j hj
        have hjlen : j < existingPolygons.length := Nat.lt_trans hj hi
        rw [List.getD_eq_getElem?_getD, List.getElem?_eq_getElem hjlen]
        simpa using hchar.2 j hj
    · rintro ⟨hi, hp, hprev⟩
      refine ⟨hi, ?_⟩
      rw [List.findIdx_eq hi]
      constructor
      · rw [List.getD_eq_getElem?_getD, List.getElem?_eq_getElem hi] at hp
        simpa using hp
      · intro j hj
        have hjlen : j < existingPolygons.length := Nat.lt_trans hj hi
        have := hprev j hj
        rw [List.getD_eq_getElem?_getD, List.getElem?_eq_getElem hjlen] at this
        simpa using this
  · rw [checkIntersections_eq_findIdx?, List.findIdx?_eq_none_iff]

/-- Witness for C4: with never-conflicting predicates the checker returns
`none` over a singleton collection. -/
theorem checkIntersections_first_conflict_index_witness :
    checkIntersections turfNever (toPosition sqA) [toPosition sqB] = none :=
  (checkIntersections_first_conflict_index turfNever (toPosition sqA)
    [toPosition sqB]).2.mpr (by decide)

/-! ### C6 -/

lemma filterIdxNeFrom_mem (l : List (List Position)) (i k : Nat)
    (q : List Position) :
    q ∈ filterIdxNeFrom l i k ↔
      ∃ j, j < l.length ∧ k + j ≠ i ∧ l.getD j [] = q := by
  induction l generalizing k with
  | nil => simp [filterIdxNeFrom]
  | cons a t ih =>
    rw [filterIdxNeFrom]
    by_cases hk : k ≠ i
    · rw [if_pos hk]
      simp only [List.mem_cons, ih (k + 1)]
      constructor
      · rintro (rfl | ⟨j, hj, hne, hq⟩)
        · exact ⟨0, by simp, by simpa using hk, rfl⟩
        · exact ⟨j + 1, by simpa using hj, by omega, by simpa using hq⟩
      · rintro ⟨j, hj, hne, hq⟩
        cases j with
        | zero => exact Or.inl (by simpa using hq.symm)
        | succ j' =>
          exact Or.inr ⟨j', by simpa using hj, by omega, by simpa using hq⟩
    · rw [if_neg hk]
      have hk' : k = i := not_not.mp hk
      rw [ih (k + 1)]
      constructor
      · rintro ⟨j, hj, hne, hq⟩
        exact ⟨j + 1, by simpa using hj, by omega, by simpa using hq⟩
      · rintro ⟨j, hj, hne, hq⟩
        cases j with
        | zero => exact absurd (by omega) hne
        | succ j' =>
          exact ⟨j', by simpa using hj, by omega, by simpa using hq⟩

lemma othersExcept_mem (l : List (List Position)) (i : Nat) (q : List Position) :
    q ∈ othersExcept l i ↔ ∃ j, j < l.length ∧ j ≠ i ∧ l.getD j [] = q := by
  unfold othersExcept
  rw [filterIdxNeFrom_mem]
  simp

lemma checkIntersections_isSome_iff (turf : GeoPredicates)
    (newPolygon : List Position) (existingPolygons : List (List Position)) :
    (checkIntersections turf newPolygon existingPolygons).isSome = true ↔
      ∃ p ∈ existingPolygons,
        conflictB turf (toGeoJSON newPolygon) (toGeoJSON p) = true := by
  rw [checkIntersections_eq_findIdx?, List.findIdx?_isSome, List.any_eq_true]

lemma handleEditedFlags_mem (turf : GeoPredicates)
    (u : List (List Position)) (i : Nat) :
    i ∈ handleEditedFlags turf u ↔
      (i < u.length ∧ ∃ j, j < u.length ∧ j ≠ i ∧
        conflictB turf (toGeoJSON (u.getD i [])) (toGeoJSON (u.getD j [])) = true) := by
  unfold handleEditedFlags
  rw [List.mem_filter, List.mem_range]
  constructor
  · rintro ⟨hi, hsome⟩
    obtain ⟨q, hq, hc⟩ := (checkIntersections_isSome_iff turf _ _).mp hsome
    obtain ⟨j, hj, hne, hgd⟩ := (othersExcept_mem u i q).mp hq
    exact ⟨hi, j, hj, hne, by rw [hgd]; exact hc⟩
  · rintro ⟨hi, j, hj, hne, hc⟩
    refine ⟨hi, (checkIntersections_isSome_iff turf _ _).mpr ?_⟩
    exact ⟨u.getD j [], (othersExcept_mem u i _).mpr ⟨j, hj, hne, rfl⟩, hc⟩

/-- C6: after an edit event the flag state is rebuilt from scratch over the
full updated collection — an index `i` is flagged exactly when its polygon
conflicts (by the overlap, crossing or intersection predicates) with at
least one other polygon of the updated collection. -/
theorem handleEdited_flags_all_pairs (turf : GeoPredicates) (s : DrawerState)
    (editedLayers : List (List Position)) :
    ∀ i, i ∈ (handleEdited turf s editedLayers).intersectingIndices ↔
      (i < (handleEditedPolygons s.polygons editedLayers).length ∧
        ∃ j, j < (handleEditedPolygons s.polygons editedLayers).length ∧ j ≠ i ∧
          conflictB turf
            (toGeoJSON ((handleEditedPolygons s.polygons editedLayers).getD i []))
            (toGeoJSON ((handleEditedPolygons s.polygons editedLayers).getD j []))
            = true) := by
  intro i
  have hII : (handleEdited turf s editedLayers).intersectingIndices =
      handleEditedFlags turf (handleEditedPolygons s.polygons editedLayers) := rfl
  rw [hII]
  exact handleEditedFlags_mem turf _ i

/-- Witness for C6: with always-conflicting predicates and a two-polygon
store, index 0 is flagged after an (empty) edit event. -/
theorem handleEdited_flags_all_pairs_witness :
    0 ∈ (handleEdited turfAlways
      ⟨[toPosition sqA, toPosition sqB], none, []⟩ []).intersectingIndices :=
  (handleEdited_flags_all_pairs turfAlways
    ⟨[toPosition sqA, toPosition sqB], none, []⟩ [] 0).mpr
    ⟨by decide, 1, by decide, by decide, by decide⟩

end InteractiveMap
